import Mathlib

/-!
# Verification of the search/filter query-translation core

Shallow embedding of `src/lib/filters.js`, `src/lib/atlasSearch.js` and the
pagination/envelope arithmetic of `GET /api/pdfs` (`src/app/api/pdfs/route.js`)
from the `e-learning-app` repository, together with proofs of the behavioural
claims extracted from the specification.

JavaScript values that flow through these helpers are modelled by `JSVal`;
JavaScript built-ins that the code relies on (`String(v)`, `parseInt`,
`Number`, `new Date`, `RegExp` with the `i` flag, `String.prototype.trim`)
are modelled by executable Lean functions following the ECMAScript
definitions of those operations, restricted to the value shapes that can
actually reach them here (strings, integers, booleans, string arrays;
ISO-8601 date strings as documented in `parseDate`'s doc comment; the
environment time zone is fixed to UTC).
-/

namespace Elearn

/-- The JavaScript values that can appear as query-parameter inputs to the
filter helpers: `undefined`, `null`, strings, (integer) numbers, booleans and
arrays of strings (the only array shape produced by `parseList`). -/
inductive JSVal where
  | undefined
  | null
  | str (s : String)
  | num (n : Int)
  | bool (b : Bool)
  | arr (xs : List String)
  deriving DecidableEq, Repr

/-- JavaScript truthiness of a `JSVal`. -/
def JSVal.truthy : JSVal → Bool
  | .undefined => false
  | .null => false
  | .str s => s != ""
  | .num n => n != 0
  | .bool b => b
  | .arr _ => true

/-- Model of `String(v)`: the JavaScript string conversion of a `JSVal`
(arrays join their elements with commas). -/
def JSVal.toStr : JSVal → String
  | .undefined => "undefined"
  | .null => "null"
  | .str s => s
  | .num n => toString n
  | .bool b => if b then "true" else "false"
  | .arr xs => String.intercalate "," xs

/-- The characters treated as white space by JavaScript's `trim` and by
`parseInt`/`Number` (ECMAScript WhiteSpace and LineTerminator). -/
def isJsSpace (c : Char) : Bool :=
  c = ' ' ∨ c = '\t' ∨ c = '\n' ∨ c = '\r' ∨ c = '\x0b' ∨ c = '\x0c' ∨
  c.val = 0xa0 ∨ c.val = 0xfeff ∨ c.val = 0x1680 ∨
  (0x2000 ≤ c.val ∧ c.val ≤ 0x200a) ∨
  c.val = 0x2028 ∨ c.val = 0x2029 ∨ c.val = 0x202f ∨ c.val = 0x205f ∨ c.val = 0x3000

/-- Model of `s.trim()`: drop leading and trailing JavaScript white space. -/
def jsTrim (s : String) : String :=
  ⟨((s.data.dropWhile isJsSpace).reverse.dropWhile isJsSpace).reverse⟩

/-- Model of `s.toLowerCase()`: character-wise lower-casing. -/
def jsToLower (s : String) : String :=
  ⟨s.data.map Char.toLower⟩

/-- Model of `sanitizeString` (`filters.js`): remove the ASCII control characters
`\x00`-`\x1f` and `\x7f`, then trim. -/
def sanitizeString (s : String) : String :=
  jsTrim ⟨s.data.filter (fun c => ¬ (c.val ≤ 0x1f ∨ c.val = 0x7f))⟩

/-- Model of `sanitizeString` as applied to an arbitrary value: the source returns
non-string values unchanged (`if (typeof val !== 'string') return val`). -/
def sanitizeVal : JSVal → JSVal
  | .str s => .str (sanitizeString s)
  | v => v

/-- Value of a list of decimal digit characters. -/
def digitsToNat (ds : List Char) : Nat :=
  ds.foldl (fun a c => a * 10 + (c.toNat - 48)) 0

/-- Model of `parseInt(s, 10)`: skip leading white space, read an optional sign and
then the longest prefix of decimal digits; `none` models `NaN`. -/
def jsParseInt (s : String) : Option Int :=
  let cs := s.data.dropWhile isJsSpace
  let signAndRest : Int × List Char :=
    match cs with
    | '-' :: r => (-1, r)
    | '+' :: r => (1, r)
    | r => (1, r)
  let ds := signAndRest.2.takeWhile Char.isDigit
  if ds.isEmpty then none else some (signAndRest.1 * (digitsToNat ds : Int))

/-- Model of `parseInteger` (`filters.js`): fallback on `undefined`/`null`/`''`,
otherwise `parseInt(String(val), 10)` with fallback on `NaN`. -/
def parseInteger (val : JSVal) (fallback : Option Int) : Option Int :=
  if val = .undefined ∨ val = .null ∨ val = .str "" then fallback
  else
    match jsParseInt val.toStr with
    | none => fallback
    | some n => some n

/-- Model of `parseBoolean` (`filters.js`): fallback on `undefined`/`null`/`''`,
booleans pass through, otherwise compare the lower-cased trimmed string
against `1/true/yes` and `0/false/no`. -/
def parseBoolean (val : JSVal) (fallback : Option Bool) : Option Bool :=
  if val = .undefined ∨ val = .null ∨ val = .str "" then fallback
  else
    match val with
    | .bool b => some b
    | v =>
      let s := jsTrim (jsToLower v.toStr)
      if s = "1" ∨ s = "true" ∨ s = "yes" then some true
      else if s = "0" ∨ s = "false" ∨ s = "no" then some false
      else fallback

/-- Model of `s.split(',')` on the character list: separators delimit (possibly
empty) tokens, and a trailing separator yields a trailing empty token. -/
def splitCommaAux : List Char → List Char → List String
  | [], acc => [⟨acc.reverse⟩]
  | c :: cs, acc =>
    if c = ',' then ⟨acc.reverse⟩ :: splitCommaAux cs []
    else splitCommaAux cs (c :: acc)

/-- Model of `s.split(',')`. -/
def splitComma (s : String) : List String :=
  splitCommaAux s.data []

/-- Model of `parseList` (`filters.js`): `[]` on falsy input; arrays are sanitized
element-wise; anything else is stringified, split on commas, sanitized, and
empty tokens are dropped (`filter(Boolean)`). -/
def parseList (val : JSVal) : List String :=
  if ¬ val.truthy then []
  else
    match val with
    | .arr xs => (xs.map sanitizeString).filter (fun t => t != "")
    | v => ((splitComma v.toStr).map sanitizeString).filter (fun t => t != "")

/-! ## `Number`, `Date` and `parseDate` -/

/-- An exact decimal number `mant * 10 ^ exp10`, the result of `Number(s)`
on a numeric string (time values stay below `2^53`, where binary floating
point is exact on integers, so the exact decimal value is a faithful model
for every quantity `parseDate` derives from it). -/
structure DecNum where
  mant : Int
  exp10 : Int
  deriving DecidableEq, Repr

def isHexDigitChar (c : Char) : Bool :=
  c.isDigit ∨ ('a' ≤ c.toLower ∧ c.toLower ≤ 'f')

def hexDigitVal (c : Char) : Nat :=
  if c.isDigit then c.toNat - 48 else c.toLower.toNat - 87

/-- Value of a digit string in the given radix; `none` unless the string is
non-empty and every character is a digit of that radix. -/
def radixVal (radix : Nat) (isD : Char → Bool) (toV : Char → Nat)
    (ds : List Char) : Option Nat :=
  if ds ≠ [] ∧ ds.all isD then some (ds.foldl (fun a c => a * radix + toV c) 0)
  else none

/-- Exponent suffix of a decimal literal: optional sign then one or more
digits, consuming the whole remaining input. -/
def decExponent (cs : List Char) : Option Int :=
  let signAndRest : Int × List Char :=
    match cs with
    | '+' :: r => (1, r)
    | '-' :: r => (-1, r)
    | r => (1, r)
  let ds := signAndRest.2.takeWhile Char.isDigit
  if ds ≠ [] ∧ signAndRest.2.drop ds.length = [] then
    some (signAndRest.1 * (digitsToNat ds : Int))
  else none

/-- Decimal literal: optional sign, integer digits, optional fraction,
optional exponent; the whole input must be consumed. -/
def jsDecimal (cs : List Char) : Option DecNum :=
  let signAndRest : Int × List Char :=
    match cs with
    | '+' :: r => (1, r)
    | '-' :: r => (-1, r)
    | r => (1, r)
  let sign := signAndRest.1
  let cs1 := signAndRest.2
  let ip := cs1.takeWhile Char.isDigit
  let cs2 := cs1.drop ip.length
  let fpAndRest : List Char × List Char :=
    match cs2 with
    | '.' :: r => (r.takeWhile Char.isDigit, r.dropWhile Char.isDigit)
    | r => ([], r)
  let fp := fpAndRest.1
  let cs3 := fpAndRest.2
  if ip = [] ∧ fp = [] then none
  else
    let mant : Int := sign * (digitsToNat (ip ++ fp) : Int)
    match cs3 with
    | [] => some ⟨mant, -(fp.length : Int)⟩
    | 'e' :: r => (decExponent r).map (fun e => ⟨mant, e - (fp.length : Int)⟩)
    | 'E' :: r => (decExponent r).map (fun e => ⟨mant, e - (fp.length : Int)⟩)
    | _ => none

/-- Model of `Number(s)` on an (already trimmed) string: empty string is `0`, then
hex/binary/octal radix literals, then decimal literals; `none` models `NaN`.
(`Infinity` spellings are modelled as `none`: every use in `parseDate` treats
them the same as `NaN` because their length is below the timestamp
threshold and they fail date parsing.) -/
def jsNumber (s : String) : Option DecNum :=
  match s.data with
  | [] => some ⟨0, 0⟩
  | '0' :: 'x' :: r => (radixVal 16 isHexDigitChar hexDigitVal r).map (fun n => ⟨(n : Int), 0⟩)
  | '0' :: 'X' :: r => (radixVal 16 isHexDigitChar hexDigitVal r).map (fun n => ⟨(n : Int), 0⟩)
  | '0' :: 'b' :: r => (radixVal 2 (fun c => c = '0' ∨ c = '1') (fun c => c.toNat - 48) r).map (fun n => ⟨(n : Int), 0⟩)
  | '0' :: 'B' :: r => (radixVal 2 (fun c => c = '0' ∨ c = '1') (fun c => c.toNat - 48) r).map (fun n => ⟨(n : Int), 0⟩)
  | '0' :: 'o' :: r => (radixVal 8 (fun c => '0' ≤ c ∧ c ≤ '7') (fun c => c.toNat - 48) r).map (fun n => ⟨(n : Int), 0⟩)
  | '0' :: 'O' :: r => (radixVal 8 (fun c => '0' ≤ c ∧ c ≤ '7') (fun c => c.toNat - 48) r).map (fun n => ⟨(n : Int), 0⟩)
  | cs => jsDecimal cs

/-- A JavaScript `Date` object: either a valid instant (milliseconds since
the epoch) or an Invalid Date (`getTime()` is `NaN`). -/
inductive DateV where
  | valid (ms : Int)
  | invalid
  deriving DecidableEq, Repr

/-- Largest representable absolute time value (ECMAScript TimeClip bound). -/
def maxTimeMs : Nat := 8640000000000000

/-- Model of `new Date(t)` for an integer time value. -/
def jsDateFromTime (t : Int) : DateV :=
  if t.natAbs ≤ maxTimeMs then .valid t else .invalid

/-- Whether the exact value of a `DecNum` lies within the TimeClip bound. -/
def DecNum.absLeMax (d : DecNum) : Bool :=
  if 0 ≤ d.exp10 then d.mant.natAbs * 10 ^ d.exp10.toNat ≤ maxTimeMs
  else d.mant.natAbs ≤ maxTimeMs * 10 ^ (-d.exp10).toNat

/-- The time value of a `DecNum`: truncation toward zero (ToIntegerOrInfinity). -/
def DecNum.truncVal (d : DecNum) : Int :=
  if 0 ≤ d.exp10 then d.mant * ((10 ^ d.exp10.toNat : Nat) : Int)
  else (if d.mant < 0 then -1 else 1) * ((d.mant.natAbs / 10 ^ (-d.exp10).toNat : Nat) : Int)

/-- Model of `new Date(n)` for a `Number` result. -/
def jsDateFromNum (d : DecNum) : DateV :=
  if d.absLeMax then .valid d.truncVal else .invalid

/-! ### ISO-8601 date parsing (`new Date(string)`)

The ECMAScript Date Time String Format as documented by `parseDate`
("ISO dates: 2023-01-01 or 2023-01-01T00:00:00Z"): `YYYY[-MM[-DD]]`
optionally followed by `THH:mm[:ss[.sss]][Z|+HH:mm|-HH:mm]`, with four-digit
years; date-only forms are UTC and the local time zone of date-time forms
without an offset is fixed to UTC in this model. -/

/-- Exactly two decimal digits. -/
def parse2 : List Char → Option (Nat × List Char)
  | a :: b :: r =>
    if a.isDigit ∧ b.isDigit then some (10 * (a.toNat - 48) + (b.toNat - 48), r)
    else none
  | _ => none

/-- Exactly four decimal digits. -/
def parse4 : List Char → Option (Nat × List Char)
  | a :: b :: c :: d :: r =>
    if a.isDigit ∧ b.isDigit ∧ c.isDigit ∧ d.isDigit then
      some (1000 * (a.toNat - 48) + 100 * (b.toNat - 48) + 10 * (c.toNat - 48) + (d.toNat - 48), r)
    else none
  | _ => none

def isLeapYear (y : Nat) : Bool :=
  (y % 4 = 0 ∧ y % 100 ≠ 0) ∨ y % 400 = 0

def daysInMonth (y m : Nat) : Nat :=
  if m = 2 then (if isLeapYear y then 29 else 28)
  else if m = 4 ∨ m = 6 ∨ m = 9 ∨ m = 11 then 30
  else 31

/-- Leap years in `[0, y)` of the proleptic Gregorian calendar. -/
def leapsBefore (y : Nat) : Nat :=
  (y + 3) / 4 - (y + 99) / 100 + (y + 399) / 400

/-- Days in the years `[0, y)`. -/
def daysBeforeYear (y : Nat) : Nat :=
  365 * y + leapsBefore y

/-- Days in the months `[1, m)` of year `y`. -/
def daysBeforeMonth (y m : Nat) : Nat :=
  (List.range (m - 1)).foldl (fun a i => a + daysInMonth y (i + 1)) 0

/-- Day number of `y-m-d` relative to 1970-01-01. -/
def epochDay (y m d : Nat) : Int :=
  ((daysBeforeYear y + daysBeforeMonth y m + (d - 1) : Nat) : Int) -
    ((daysBeforeYear 1970 : Nat) : Int)

/-- Time-zone offset suffix `HH:mm` (minutes), consuming all input. -/
def parseTzTail (cs : List Char) : Option Int := do
  let (h, r) ← parse2 cs
  match r with
  | ':' :: r' => do
    let (m, r'') ← parse2 r'
    match r'' with
    | [] => if h ≤ 23 ∧ m ≤ 59 then some ((h : Int) * 60 + (m : Int)) else none
    | _ => none
  | _ => none

/-- Time part `HH:mm[:ss[.sss]][Z|+HH:mm|-HH:mm]` of a date-time string:
returns milliseconds into the day minus the zone offset. -/
def parseTimeTail (cs : List Char) : Option Int := do
  let (hh, r1) ← parse2 cs
  let (mi, r2) ←
    match r1 with
    | ':' :: r => parse2 r
    | _ => none
  let secs ←
    match r2 with
    | ':' :: r => do
      let (ss, r') ← parse2 r
      match r' with
      | '.' :: a :: b :: c :: r'' =>
        if a.isDigit ∧ b.isDigit ∧ c.isDigit then
          some (ss, 100 * (a.toNat - 48) + 10 * (b.toNat - 48) + (c.toNat - 48), r'')
        else none
      | r'' => some (ss, 0, r'')
    | r => some (0, 0, r)
  let off ←
    match secs.2.2 with
    | [] => some (0 : Int)
    | ['Z'] => some (0 : Int)
    | '+' :: r => parseTzTail r
    | '-' :: r => (parseTzTail r).map Neg.neg
    | _ => none
  let hOk : Bool := hh ≤ 23 ∨ (hh = 24 ∧ mi = 0 ∧ secs.1 = 0 ∧ secs.2.1 = 0)
  if hOk ∧ mi ≤ 59 ∧ secs.1 ≤ 59 then
    some ((hh : Int) * 3600000 + (mi : Int) * 60000 + (secs.1 : Int) * 1000 +
      (secs.2.1 : Int) - off * 60000)
  else none

/-- Model of `new Date(s)` on a non-numeric string: parse the ISO-8601 format above;
`none` models an Invalid Date. -/
def isoParse (s : String) : Option Int := do
  let (y, r1) ← parse4 s.data
  let md ←
    match r1 with
    | '-' :: r => do
      let (m, r2) ← parse2 r
      match r2 with
      | '-' :: r' => do
        let (d, r3) ← parse2 r'
        some (m, d, r3)
      | _ => some (m, 1, r2)
    | _ => some (1, 1, r1)
  let m := md.1
  let d := md.2.1
  if 1 ≤ m ∧ m ≤ 12 ∧ 1 ≤ d ∧ d ≤ daysInMonth y m then
    match md.2.2 with
    | [] => some (epochDay y m d * 86400000)
    | 'T' :: rt => (parseTimeTail rt).map (fun t => epochDay y m d * 86400000 + t)
    | _ => none
  else none

/-- The relative-duration pattern `/^last(\d+)([dhmy])$/i`: on success,
the digit count and the lower-cased unit letter. -/
def matchRelative (s : String) : Option (Nat × Char) :=
  match s.data.map Char.toLower with
  | 'l' :: 'a' :: 's' :: 't' :: rest =>
    let ds := rest.takeWhile Char.isDigit
    if ds.isEmpty then none
    else
      match rest.drop ds.length with
      | [u] =>
        if u = 'd' ∨ u = 'h' ∨ u = 'm' ∨ u = 'y' then some (digitsToNat ds, u)
        else none
      | _ => none
  | _ => none

/-- Model of `isNaN(d.getTime()) ? null : d` applied to a freshly built `Date`. -/
def dateOrNull (d : DateV) : Option DateV :=
  match d with
  | .valid t => some (.valid t)
  | .invalid => none

/-- Model of `parseDate` (`filters.js`): null on falsy input; `last<N><unit>` relative
durations (the resulting `Date` is returned without a validity check);
non-`NaN` numeric strings of length at least 10 as millisecond timestamps
(null when the `Date` is invalid); otherwise `new Date(s)` (null when
invalid). `now` is the current clock reading in milliseconds. -/
def parseDate (val : JSVal) (now : Int) : Option DateV :=
  if ¬ val.truthy then none
  else
    let s := jsTrim val.toStr
    match matchRelative s with
    | some nu =>
      if nu.2 = 'd' then some (jsDateFromTime (now - (nu.1 : Int) * (24 * 60 * 60 * 1000)))
      else if nu.2 = 'h' then some (jsDateFromTime (now - (nu.1 : Int) * (60 * 60 * 1000)))
      else if nu.2 = 'm' then some (jsDateFromTime (now - (nu.1 : Int) * (30 * 24 * 60 * 60 * 1000)))
      else if nu.2 = 'y' then some (jsDateFromTime (now - (nu.1 : Int) * (365 * 24 * 60 * 60 * 1000)))
      else none
    | none =>
      match jsNumber s with
      | some dn =>
        if 10 ≤ s.length then dateOrNull (jsDateFromNum dn)
        else
          match isoParse s with
          | some t => dateOrNull (jsDateFromTime t)
          | none => none
      | none =>
        match isoParse s with
        | some t => dateOrNull (jsDateFromTime t)
        | none => none

/-! ## Regular expressions (`new RegExp(pattern, 'i')`)

The keyword fallback is the single place user input reaches `RegExp`.
The fragment of the JavaScript regex language reachable from escaped
patterns plus the raw metacharacters themselves is modelled: literal atoms
(including `\c` escapes), `.` (any character except line terminators),
the postfix quantifiers `*`, `+`, `?`, and top-level alternation `|`.
The remaining metacharacters (`^ $ ( ) [ ] \x7b \x7d`) make the parse fail;
a pattern built by `escapeRegex` never contains them unescaped.  Matching is
case-insensitive (the `i` flag), modelled with `Char.toLower`, and
unanchored (`RegExp.prototype.test` searches every position). -/

/-- The characters replaced by `\$&` in
`kw.replace(/[.*+?^$\x7b\x7d()|[\]\\]/g, ...)`. -/
def regexMetaChars : List Char :=
  ['.', '*', '+', '?', '^', '$', '\x7b', '\x7d', '(', ')', '|', '[', ']', '\\']

/-- Model of `escapeRegex`: the escaping step of `buildMongoFilters` — prefix every
regex metacharacter with a backslash. -/
def escapeRegex (s : String) : String :=
  ⟨s.data.flatMap (fun c => if c ∈ regexMetaChars then ['\\', c] else [c])⟩

/-- A regex atom: a literal character or `.`. -/
inductive RAtom where
  | lit (c : Char)
  | anyChar
  deriving DecidableEq, Repr

/-- An atom with an optional postfix quantifier. -/
inductive RPiece where
  | once (a : RAtom)
  | star (a : RAtom)
  | plus (a : RAtom)
  | opt (a : RAtom)
  deriving DecidableEq, Repr

/-- Parser state: completed alternatives and the current sequence are kept
reversed; `esc` records a pending backslash, `bad` an unsupported construct. -/
structure PState where
  alts : List (List RPiece)
  cur : List RPiece
  esc : Bool
  bad : Bool
  deriving DecidableEq, Repr

/-- One parsing step over a pattern character. -/
def stepP (st : PState) (c : Char) : PState :=
  if st.bad then st
  else if st.esc then { st with cur := .once (.lit c) :: st.cur, esc := false }
  else if c = '\\' then { st with esc := true }
  else if c = '|' then { st with alts := st.cur.reverse :: st.alts, cur := [] }
  else if c = '.' then { st with cur := .once .anyChar :: st.cur }
  else if c = '*' then
    match st.cur with
    | .once a :: rest => { st with cur := .star a :: rest }
    | _ => { st with bad := true }
  else if c = '+' then
    match st.cur with
    | .once a :: rest => { st with cur := .plus a :: rest }
    | _ => { st with bad := true }
  else if c = '?' then
    match st.cur with
    | .once a :: rest => { st with cur := .opt a :: rest }
    | _ => { st with bad := true }
  else if c ∈ regexMetaChars then { st with bad := true }
  else { st with cur := .once (.lit c) :: st.cur }

/-- Parse a pattern into its list of alternatives. -/
def parseRegex (pat : String) : Option (List (List RPiece)) :=
  let st := pat.data.foldl stepP ⟨[], [], false, false⟩
  if st.bad ∨ st.esc then none
  else some ((st.cur.reverse :: st.alts).reverse)

/-- Case-insensitive atom match (`.` excludes line terminators). -/
def atomMatch : RAtom → Char → Bool
  | .lit l, c => l.toLower == c.toLower
  | .anyChar, c => !(c == '\n' || c == '\r' || c.val == 0x2028 || c.val == 0x2029)

/-- Remainders after matching an atom zero or more times at the front. -/
def starRems (a : RAtom) : List Char → List (List Char)
  | [] => [[]]
  | c :: cs => (c :: cs) :: (if atomMatch a c then starRems a cs else [])

/-- Remainders after matching one piece at the front. -/
def pieceRems : RPiece → List Char → List (List Char)
  | .once _, [] => []
  | .once a, c :: cs => if atomMatch a c then [cs] else []
  | .star a, cs => starRems a cs
  | .plus _, [] => []
  | .plus a, c :: cs => if atomMatch a c then starRems a cs else []
  | .opt _, [] => [[]]
  | .opt a, c :: cs => if atomMatch a c then [cs, c :: cs] else [c :: cs]

/-- Remainders after matching a sequence of pieces at the front. -/
def seqRems : List RPiece → List Char → List (List Char)
  | [], cs => [cs]
  | p :: ps, cs => (pieceRems p cs).flatMap (seqRems ps)

/-- Does some alternative match a prefix of `cs`? -/
def altsMatchAt (alts : List (List RPiece)) (cs : List Char) : Bool :=
  alts.any (fun ps => !(seqRems ps cs).isEmpty)

/-- Unanchored search: does some alternative match at some position? -/
def searchFrom (alts : List (List RPiece)) : List Char → Bool
  | [] => altsMatchAt alts []
  | c :: cs => altsMatchAt alts (c :: cs) || searchFrom alts cs

/-- Model of `new RegExp(pat, 'i').test(s)` for the supported pattern fragment. -/
def regexITest (pat : String) (s : String) : Bool :=
  match parseRegex pat with
  | some alts => searchFrom alts s.data
  | none => false

/-! ## `buildMongoFilters` -/

/-- An inclusive date-range constraint (`$gte` / `$lte`). -/
structure DateRange where
  gte : Option DateV
  lte : Option DateV
  deriving DecidableEq, Repr

/-- One branch of the keyword `$or` clause: a case-insensitive regex on a
text field, or exact tag membership. -/
inductive OrBranch where
  | regexField (field : String) (pattern : String)
  | tagsIn (vals : List String)
  deriving DecidableEq, Repr

/-- The Mongo filter object built by `buildMongoFilters`: at most one entry
per supported field; `none` means the key is absent. -/
structure MongoFilter where
  language : Option JSVal := none
  category : Option JSVal := none
  tags : Option (List String) := none
  locations : Option (List String) := none
  isPaid : Option Bool := none
  downloads : Option Int := none
  publishedAt : Option DateRange := none
  examDate : Option DateRange := none
  level : Option JSVal := none
  orClause : Option (List OrBranch) := none
  deriving DecidableEq, Repr

/-- The keys present in a filter object, in field order. -/
def MongoFilter.keys (f : MongoFilter) : List String :=
  (if f.language.isSome then ["language"] else []) ++
  (if f.category.isSome then ["category"] else []) ++
  (if f.tags.isSome then ["tags"] else []) ++
  (if f.locations.isSome then ["locations"] else []) ++
  (if f.isPaid.isSome then ["isPaid"] else []) ++
  (if f.downloads.isSome then ["downloads"] else []) ++
  (if f.publishedAt.isSome then ["publishedAt"] else []) ++
  (if f.examDate.isSome then ["examDate"] else []) ++
  (if f.level.isSome then ["level"] else []) ++
  (if f.orClause.isSome then ["$or"] else [])

/-- The parameters `buildMongoFilters` destructures from its `opts` object. -/
structure FilterOpts where
  language : JSVal := .undefined
  category : JSVal := .undefined
  tags : JSVal := .undefined
  locations : JSVal := .undefined
  isPaid : JSVal := .undefined
  minDownloads : JSVal := .undefined
  dateFrom : JSVal := .undefined
  dateTo : JSVal := .undefined
  examDateFrom : JSVal := .undefined
  examDateTo : JSVal := .undefined
  level : JSVal := .undefined
  keywords : JSVal := .undefined
  deriving DecidableEq, Repr

/-- The `tags`/`locations` handling in `buildMongoFilters`: a non-empty
array is sanitized element-wise; a string with non-blank trim goes through
`parseList`, and an empty token list yields no constraint. -/
def inListFilter (v : JSVal) : Option (List String) :=
  match v with
  | .arr xs => if xs.isEmpty then none else some (xs.map sanitizeString)
  | .str s =>
    if jsTrim s != "" then
      (let arr := parseList (.str s); if arr.isEmpty then none else some arr)
    else none
  | _ => none

/-- Model of `buildMongoFilters` over already-destructured parameters. -/
def buildMongoFiltersOf (o : FilterOpts) (now : Int) : MongoFilter :=
  let languageF := if o.language.truthy then some (sanitizeVal o.language) else none
  let categoryF := if o.category.truthy then some (sanitizeVal o.category) else none
  let tagsF := inListFilter o.tags
  let locationsF := inListFilter o.locations
  let isPaidF := if o.isPaid = .undefined ∨ o.isPaid = .null then none else some o.isPaid.truthy
  let downloadsF := parseInteger o.minDownloads none
  let fromD := parseDate o.dateFrom now
  let toD := parseDate o.dateTo now
  let publishedAtF :=
    if fromD.isSome ∨ toD.isSome then some (DateRange.mk fromD toD) else none
  let eFromD := parseDate o.examDateFrom now
  let eToD := parseDate o.examDateTo now
  let examDateF :=
    if eFromD.isSome ∨ eToD.isSome then some (DateRange.mk eFromD eToD) else none
  let levelF := if o.level.truthy then some (sanitizeVal o.level) else none
  let orF :=
    match o.keywords with
    | .str s =>
      if s != "" ∧ 0 < (jsTrim s).length then
        let kw := sanitizeString s
        some [OrBranch.regexField "title_en" (escapeRegex kw),
              OrBranch.regexField "title_hi" (escapeRegex kw),
              OrBranch.regexField "title_bn" (escapeRegex kw),
              OrBranch.regexField "description" (escapeRegex kw),
              OrBranch.tagsIn [kw]]
      else none
    | _ => none
  ⟨languageF, categoryF, tagsF, locationsF, isPaidF, downloadsF,
    publishedAtF, examDateF, levelF, orF⟩

/-- A bag of query parameters: a total lookup from name to value, with
`undefined` for absent names. -/
abbrev Opts : Type := String → JSVal

/-- Functional update of a parameter bag. -/
def updateOpt (opts : Opts) (k : String) (v : JSVal) : Opts :=
  fun n => if n = k then v else opts n

/-- The destructuring `const { language, ..., keywords } = opts`. -/
def readFilterOpts (opts : Opts) : FilterOpts :=
  ⟨opts "language", opts "category", opts "tags", opts "locations",
    opts "isPaid", opts "minDownloads", opts "dateFrom", opts "dateTo",
    opts "examDateFrom", opts "examDateTo", opts "level", opts "keywords"⟩

/-- Model of `buildMongoFilters` (`filters.js`). -/
def buildMongoFilters (opts : Opts) (now : Int) : MongoFilter :=
  buildMongoFiltersOf (readFilterOpts opts) now

/-! ## `buildListOptions` -/

def DEFAULT_PAGE : Int := 1
def DEFAULT_LIMIT : Int := 12
def MAX_LIMIT : Int := 200

/-- An ordered Mongo sort specification: field names with directions. -/
abbrev SortSpec : Type := List (String × Int)

/-- Model of `SORT_MAP` (`filters.js`). -/
def SORT_MAP : List (String × SortSpec) :=
  [("score", [("score", -1), ("downloads", -1), ("createdAt", -1)]),
   ("downloads", [("downloads", -1), ("createdAt", -1)]),
   ("latest", [("createdAt", -1)]),
   ("oldest", [("createdAt", 1)]),
   ("price_asc", [("price", 1)]),
   ("price_desc", [("price", -1)])]

/-- The own property keys of the `SORT_MAP` object literal. -/
def sortMapOwnKeys : List String :=
  SORT_MAP.map Prod.fst

/-- The property names of `Object.prototype`, inherited by every object
literal: reading any of them on `SORT_MAP` yields a truthy value (a
built-in function, or `Object.prototype` itself for `__proto__`). -/
def objectProtoNames : List String :=
  ["constructor", "hasOwnProperty", "isPrototypeOf", "propertyIsEnumerable",
   "toLocaleString", "toString", "valueOf", "__defineGetter__",
   "__defineSetter__", "__lookupGetter__", "__lookupSetter__", "__proto__"]

/-- A value read from the `SORT_MAP` object: one of its own Mongo sort
specifications, or a member inherited from `Object.prototype` (truthy but
not a sort specification). -/
inductive SortVal where
  | spec (s : SortSpec)
  | protoFn (name : String)
  deriving DecidableEq, Repr

/-- Model of the JS property read `SORT_MAP[key]`: own keys first, then the
prototype chain (`Object.prototype`); `none` models `undefined` (falsy). -/
def sortMapGet (key : String) : Option SortVal :=
  match SORT_MAP.lookup key with
  | some s => some (.spec s)
  | none => if key ∈ objectProtoNames then some (.protoFn key) else none

/-- The `page`/`limit`/`sort` parameters of `buildListOptions`. -/
structure ListOptsIn where
  page : JSVal := .undefined
  limit : JSVal := .undefined
  sort : JSVal := .undefined
  deriving DecidableEq, Repr

/-- The result of `buildListOptions`. -/
structure ListOptions where
  skip : Int
  limit : Int
  sort : SortVal
  page : Int
  deriving DecidableEq, Repr

/-- Model of `buildListOptions` (`filters.js`): destructuring defaults for absent
parameters, integer parsing with defaults, clamping of `limit` to
`[1, MAX_LIMIT]` and of `page` to at least 1, `skip = (page-1)*limit`,
and sort resolution by the JS object reads `SORT_MAP[sort]` /
`SORT_MAP[sortKey] || SORT_MAP.score` — property reads that also hit the
members inherited from `Object.prototype`, so those names do not fall back
to the `score` ordering. -/
def buildListOptions (opts : ListOptsIn) : ListOptions :=
  let pageV := if opts.page = .undefined then JSVal.num DEFAULT_PAGE else opts.page
  let limitV := if opts.limit = .undefined then JSVal.num DEFAULT_LIMIT else opts.limit
  let sortV := if opts.sort = .undefined then JSVal.str "score" else opts.sort
  let page0 := (parseInteger pageV (some DEFAULT_PAGE)).getD DEFAULT_PAGE
  let limit0 := (parseInteger limitV (some DEFAULT_LIMIT)).getD DEFAULT_LIMIT
  let limit1 := if limit0 ≤ 0 then DEFAULT_LIMIT else limit0
  let limit := if MAX_LIMIT < limit1 then MAX_LIMIT else limit1
  let page := if page0 ≤ 0 then DEFAULT_PAGE else page0
  let skip := (page - 1) * limit
  let sortKey :=
    match sortV with
    | .str s => if (sortMapGet s).isSome then s else "score"
    | _ => "score"
  let sortObj := (sortMapGet sortKey).getD (SortVal.spec ((SORT_MAP.lookup "score").getD []))
  ⟨skip, limit, sortObj, page⟩

/-! ## `buildPdfFiltersAndOptions` -/

/-- The two accepted query shapes: a `URLSearchParams`-style accessor
(`get` returns a string or null, `has` is `isSome`) or a plain object. -/
inductive QueryInput where
  | searchParams (get : String → Option String)
  | obj (g : String → JSVal)

/-- Model of `query.get(name) || undefined`. -/
def strOrUndef : Option String → JSVal
  | some s => if s = "" then .undefined else .str s
  | none => .undefined

/-- The result of `parseBoolean` as a `JSVal` (`undefined` on fallback). -/
def boolValOf (r : Option Bool) : JSVal :=
  match r with
  | some b => .bool b
  | none => .undefined

/-- The normalized intermediate `params` object of
`buildPdfFiltersAndOptions`. -/
structure WrapperParams where
  q : JSVal
  language : JSVal
  category : JSVal
  tags : JSVal
  locations : JSVal
  isPaid : JSVal
  minDownloads : JSVal
  dateFrom : JSVal
  dateTo : JSVal
  examDateFrom : JSVal
  examDateTo : JSVal
  level : JSVal
  keywords : JSVal
  page : JSVal
  limit : JSVal
  sort : JSVal
  deriving DecidableEq, Repr

/-- Normalization of the `params` object from either query shape. -/
def readWrapperParams (query : QueryInput) : WrapperParams :=
  match query with
  | .searchParams get =>
    ⟨.str ((get "q").getD ""),
      strOrUndef (get "language"), strOrUndef (get "category"),
      strOrUndef (get "tags"), strOrUndef (get "locations"),
      (match get "isPaid" with
        | some s => boolValOf (parseBoolean (.str s) none)
        | none => .undefined),
      strOrUndef (get "minDownloads"),
      strOrUndef (get "dateFrom"), strOrUndef (get "dateTo"),
      strOrUndef (get "examDateFrom"), strOrUndef (get "examDateTo"),
      strOrUndef (get "level"), strOrUndef (get "keywords"),
      strOrUndef (get "page"), strOrUndef (get "limit"), strOrUndef (get "sort")⟩
  | .obj g =>
    ⟨(if (g "q").truthy then g "q" else .str ""),
      g "language", g "category", g "tags", g "locations",
      (if g "isPaid" = .undefined then .undefined else boolValOf (parseBoolean (g "isPaid") none)),
      g "minDownloads", g "dateFrom", g "dateTo",
      g "examDateFrom", g "examDateTo", g "level", g "keywords",
      g "page", g "limit", g "sort"⟩

/-- Model of `if (typeof params.tags === 'string' && params.tags.trim())
params.tags = parseList(params.tags)`. -/
def normalizeListParam (v : JSVal) : JSVal :=
  match v with
  | .str s => if jsTrim s != "" then .arr (parseList (.str s)) else .str s
  | v => v

/-- The normalized-request echo returned alongside the filter and options. -/
structure Meta where
  q : JSVal
  page : Int
  limit : Int
  sort : JSVal
  deriving DecidableEq, Repr

/-- The `\x7b filters, options, meta \x7d` result of the wrapper. -/
structure PdfFiltersResult where
  filters : MongoFilter
  options : ListOptions
  meta : Meta
  deriving DecidableEq, Repr

/-- Model of `buildPdfFiltersAndOptions` (`filters.js`). -/
def buildPdfFiltersAndOptions (query : QueryInput) (now : Int) : PdfFiltersResult :=
  let p0 := readWrapperParams query
  let p := { p0 with
    tags := normalizeListParam p0.tags,
    locations := normalizeListParam p0.locations }
  let filters := buildMongoFiltersOf
    ⟨p.language, p.category, p.tags, p.locations, p.isPaid, p.minDownloads,
      p.dateFrom, p.dateTo, p.examDateFrom, p.examDateTo, p.level, p.keywords⟩ now
  let options := buildListOptions ⟨p.page, p.limit, p.sort⟩
  let meta := Meta.mk p.q options.page options.limit
    (if p.sort.truthy then p.sort else .str "score")
  ⟨filters, options, meta⟩

/-! ## `buildPdfSearchPipeline` (`atlasSearch.js`) -/

/-- A clause of the `$search` `compound` operator. -/
inductive SearchClause where
  | text (query : JSVal) (path : List String) (maxEdits : Nat) (prefixLength : Nat)
  | equalsC (path : String) (value : JSVal)
  | inC (path : String) (value : List String)
  deriving DecidableEq, Repr

/-- The `compound` operator: `should`/`must` are `undefined` when empty. -/
structure CompoundQuery where
  should : Option (List SearchClause)
  must : Option (List SearchClause)
  deriving DecidableEq, Repr

/-- The `should` clauses as a list (empty when `undefined`). -/
def CompoundQuery.shouldL (c : CompoundQuery) : List SearchClause :=
  c.should.getD []

/-- The `must` clauses as a list (empty when `undefined`). -/
def CompoundQuery.mustL (c : CompoundQuery) : List SearchClause :=
  c.must.getD []

/-- The aggregation stages produced by `buildPdfSearchPipeline`. -/
inductive PipelineStage where
  | search (index : String) (compound : CompoundQuery) (highlightPath : List String)
  | addScoreHighlights
  | projectFields (fields : List String)
  | sortBy (spec : SortSpec)
  | facet (skip : Int) (limit : Int)
  deriving DecidableEq, Repr

/-- The arguments of `buildPdfSearchPipeline`, with its destructuring
defaults. -/
structure SearchArgs where
  q : JSVal := .undefined
  language : JSVal := .undefined
  category : JSVal := .undefined
  locations : List String := []
  sort : String := "score"
  page : Int := 1
  limit : Int := 10
  deriving DecidableEq, Repr

/-- The fields searched by the text clause. -/
def searchTextPaths : List String :=
  ["title_en", "title_hi", "title_bn", "keywords.en", "keywords.hi",
   "keywords.bn", "tags", "category"]

/-- The fields for which highlighting metadata is requested. -/
def highlightPaths : List String :=
  ["title_en", "title_hi", "title_bn", "keywords.en", "tags"]

/-- The `$project` field list. -/
def searchProjection : List String :=
  ["title_en", "title_hi", "title_bn", "category", "tags", "language",
   "seoSlug", "downloads", "createdAt", "r2Key", "price", "isPaid",
   "score", "highlights"]

/-- Model of `buildPdfSearchPipeline` (`atlasSearch.js`). -/
def buildPdfSearchPipeline (a : SearchArgs) : List PipelineStage :=
  let shouldCs : List SearchClause :=
    if a.q.truthy then [.text a.q searchTextPaths 2 2] else []
  let mustCs : List SearchClause :=
    (if a.language.truthy then [.equalsC "language" a.language] else []) ++
    (if a.category.truthy then [.equalsC "category" a.category] else []) ++
    (if ¬ a.locations.isEmpty then [.inC "locations" a.locations] else [])
  let compound : CompoundQuery :=
    ⟨(if shouldCs.isEmpty then none else some shouldCs),
      (if mustCs.isEmpty then none else some mustCs)⟩
  let sortStage : PipelineStage :=
    if a.sort = "downloads" then .sortBy [("downloads", -1), ("createdAt", -1)]
    else if a.sort = "latest" then .sortBy [("createdAt", -1)]
    else .sortBy [("score", -1), ("downloads", -1), ("createdAt", -1)]
  [.search "pdf_search_index" compound highlightPaths,
   .addScoreHighlights,
   .projectFields searchProjection,
   sortStage,
   .facet ((a.page - 1) * a.limit) a.limit]

/-! ## Execution of the pagination fan-out and the response envelope

The `$facet` stage of the pipeline and the envelope arithmetic of
`GET /api/pdfs`.  `$skip`/`$limit`/`$count` are given their documented
MongoDB aggregation semantics over the ranked result list: drop, take,
and length. -/

/-- Run the `$facet` fan-out over the ranked matches: the page slice from
`results: [\x7b $skip \x7d, \x7b $limit \x7d]` and the total from
`totalCount: [\x7b $count \x7d]`. -/
def runFacet {α : Type} (skip limit : Int) (ranked : List α) : List α × Nat :=
  ((ranked.drop skip.toNat).take limit.toNat, ranked.length)

/-- The response envelope numbers computed by the handler:
`results`, `total`, and `totalPages = limit > 0 ? Math.ceil(total/limit) : 0`. -/
def searchEnvelope {α : Type} (ranked : List α) (page limit : Int) :
    List α × Nat × Nat :=
  let fac := runFacet ((page - 1) * limit) limit ranked
  (fac.1, fac.2, if 0 < limit then (fac.2 + (limit.toNat - 1)) / limit.toNat else 0)

/-! ## Lemmas: escaped patterns denote literal case-insensitive substring
search -/

/-- The all-literal piece sequence denoting the characters `ws`. -/
def litSeq (ws : List Char) : List RPiece :=
  ws.map (fun c => RPiece.once (RAtom.lit c))

/-- Case-insensitive "`ws` is a prefix of `cs`". -/
def ciStarts : List Char → List Char → Bool
  | [], _ => true
  | _ :: _, [] => false
  | w :: ws, c :: cs => w.toLower == c.toLower && ciStarts ws cs

/-- Case-insensitive "`ws` occurs inside `cs`". -/
def ciFind (ws : List Char) : List Char → Bool
  | [] => ciStarts ws []
  | c :: cs => ciStarts ws (c :: cs) || ciFind ws cs

/-- The filter keys `buildMongoFilters` can emit. -/
def supportedFilterKeys : List String :=
  ["language", "category", "tags", "locations", "isPaid", "downloads",
   "publishedAt", "examDate", "level", "$or"]

/-- The parameter names `buildMongoFilters` destructures from `opts`. -/
def filterParamNames : List String :=
  ["language", "category", "tags", "locations", "isPaid", "minDownloads",
   "dateFrom", "dateTo", "examDateFrom", "examDateTo", "level", "keywords"]

/-- The parameter names `buildPdfFiltersAndOptions` reads from its query. -/
def wrapperParamNames : List String :=
  ["q", "language", "category", "tags", "locations", "isPaid", "minDownloads",
   "dateFrom", "dateTo", "examDateFrom", "examDateTo", "level", "keywords",
   "page", "limit", "sort"]

/-- The specification of the first `$sort` stage of a pipeline. -/
def sortSpecOf (p : List PipelineStage) : Option SortSpec :=
  p.findSome? (fun st =>
    match st with
    | .sortBy spec => some spec
    | _ => none)

lemma foldl_stepP_escape (cs : List Char) : ∀ st : PState,
    st.bad = false → st.esc = false →
    (cs.flatMap (fun c => if c ∈ regexMetaChars then ['\\', c] else [c])).foldl stepP st =
      { st with cur := (litSeq cs).reverse ++ st.cur } := by
  induction cs with
  | nil =>
    intro st hb he
    simp [litSeq]
  | cons c cs ih =>
    intro st hb he
    by_cases hc : c ∈ regexMetaChars
    · have h1 : stepP st '\\' = { st with esc := true } := by
        simp [stepP, hb, he]
      have h2 : stepP { st with esc := true } c =
          { st with cur := RPiece.once (RAtom.lit c) :: st.cur, esc := false } := by
        simp [stepP, hb]
      simp only [List.flatMap_cons, if_pos hc, List.cons_append, List.nil_append,
        List.foldl_cons, h1, h2]
      have hrec := ih { st with cur := RPiece.once (RAtom.lit c) :: st.cur, esc := false } hb rfl
      rw [hrec]
      simp [litSeq, he]
    · have hb1 : ¬ c = '\\' := by rintro rfl; exact hc (by decide)
      have hb2 : ¬ c = '|' := by rintro rfl; exact hc (by decide)
      have hb3 : ¬ c = '.' := by rintro rfl; exact hc (by decide)
      have hb4 : ¬ c = '*' := by rintro rfl; exact hc (by decide)
      have hb5 : ¬ c = '+' := by rintro rfl; exact hc (by decide)
      have hb6 : ¬ c = '?' := by rintro rfl; exact hc (by decide)
      have h1 : stepP st c = { st with cur := RPiece.once (RAtom.lit c) :: st.cur } := by
        simp [stepP, hb, he, hb1, hb2, hb3, hb4, hb5, hb6, hc]
      simp only [List.flatMap_cons, if_neg hc, List.cons_append, List.nil_append,
        List.foldl_cons, h1]
      have hrec := ih { st with cur := RPiece.once (RAtom.lit c) :: st.cur } hb he
      rw [hrec]
      simp [litSeq]

/-- An escaped pattern parses to the single all-literal alternative. -/
lemma parseRegex_escapeRegex (s : String) :
    parseRegex (escapeRegex s) = some [litSeq s.data] := by
  have hdata : (escapeRegex s).data =
      s.data.flatMap (fun c => if c ∈ regexMetaChars then ['\\', c] else [c]) := rfl
  rw [parseRegex, hdata, foldl_stepP_escape s.data ⟨[], [], false, false⟩ rfl rfl]
  simp

lemma seqRems_litSeq (ws : List Char) : ∀ cs : List Char,
    ((seqRems (litSeq ws) cs).isEmpty = false) ↔ ciStarts ws cs = true := by
  induction ws with
  | nil =>
    intro cs
    simp [litSeq, seqRems, ciStarts]
  | cons w ws ih =>
    intro cs
    cases cs with
    | nil =>
      simp [litSeq, seqRems, pieceRems, ciStarts]
    | cons c cs =>
      by_cases hm : w.toLower = c.toLower
      · have hm' : atomMatch (RAtom.lit w) c = true := by
          simp [atomMatch, hm]
        have hih := ih cs
        simp only [litSeq, List.map_cons] at hih ⊢
        simp [seqRems, pieceRems, ciStarts, hm', hm, hih]
      · have hm' : atomMatch (RAtom.lit w) c = false := by
          simp [atomMatch, hm]
        simp only [litSeq, List.map_cons]
        simp [seqRems, pieceRems, ciStarts, hm', hm]

lemma altsMatchAt_litSeq (ws cs : List Char) :
    altsMatchAt [litSeq ws] cs = ciStarts ws cs := by
  simp only [altsMatchAt, List.any_cons, List.any_nil, Bool.or_false]
  cases hstart : ciStarts ws cs with
  | true =>
    have := (seqRems_litSeq ws cs).mpr hstart
    simp [this]
  | false =>
    have : ¬ ((seqRems (litSeq ws) cs).isEmpty = false) := by
      intro h
      rw [(seqRems_litSeq ws cs)] at h
      simp [h] at hstart
    have h2 : (seqRems (litSeq ws) cs).isEmpty = true := by
      cases h : (seqRems (litSeq ws) cs).isEmpty with
      | true => rfl
      | false => exact absurd h this
    simp [h2]

lemma searchFrom_litSeq (ws : List Char) : ∀ cs : List Char,
    searchFrom [litSeq ws] cs = ciFind ws cs := by
  intro cs
  induction cs with
  | nil => simp [searchFrom, ciFind, altsMatchAt_litSeq]
  | cons c cs ih => simp [searchFrom, ciFind, altsMatchAt_litSeq, ih]

lemma ciStarts_iff (ws : List Char) : ∀ cs : List Char,
    ciStarts ws cs = true ↔
      ∃ r, cs.map Char.toLower = ws.map Char.toLower ++ r := by
  induction ws with
  | nil =>
    intro cs
    simp [ciStarts]
  | cons w ws ih =>
    intro cs
    cases cs with
    | nil =>
      simp [ciStarts]
    | cons c cs =>
      simp only [ciStarts, Bool.and_eq_true, beq_iff_eq, List.map_cons, ih]
      constructor
      · rintro ⟨hw, r, hr⟩
        exact ⟨r, by simp [hw, hr]⟩
      · rintro ⟨r, hr⟩
        rw [List.cons_append] at hr
        obtain ⟨h1, h2⟩ := List.cons.inj hr
        exact ⟨h1.symm, r, h2⟩

lemma ciFind_iff (ws : List Char) : ∀ cs : List Char,
    ciFind ws cs = true ↔
      ∃ l r, cs.map Char.toLower = l ++ ws.map Char.toLower ++ r := by
  intro cs
  induction cs with
  | nil =>
    rw [ciFind, ciStarts_iff]
    constructor
    · rintro ⟨r, hr⟩
      exact ⟨[], r, by simpa using hr⟩
    · rintro ⟨l, r, hr⟩
      simp only [List.map_nil] at hr
      rcases List.append_eq_nil.mp hr.symm with ⟨hl, hr0⟩
      rcases List.append_eq_nil.mp hl with ⟨hl0, hws⟩
      exact ⟨r, by simp [hws, hr0]⟩
  | cons c cs ih =>
    rw [ciFind, Bool.or_eq_true, ciStarts_iff, ih]
    constructor
    · rintro (⟨r, hr⟩ | ⟨l, r, hr⟩)
      · exact ⟨[], r, by simpa using hr⟩
      · exact ⟨Char.toLower c :: l, r, by simp [hr]⟩
    · rintro ⟨l, r, hr⟩
      cases l with
      | nil =>
        exact Or.inl ⟨r, by simpa using hr⟩
      | cons x l =>
        simp only [List.map_cons, List.cons_append] at hr
        obtain ⟨h1, h2⟩ := List.cons.inj hr
        exact Or.inr ⟨l, r, h2⟩

/-- The regex compiled from an escaped pattern matches a string exactly when
the original keyword occurs in it as a case-insensitive substring. -/
lemma regexITest_escapeRegex (kw t : String) :
    regexITest (escapeRegex kw) t = true ↔
      ∃ l r, t.data.map Char.toLower = l ++ kw.data.map Char.toLower ++ r := by
  have h : regexITest (escapeRegex kw) t = searchFrom [litSeq kw.data] t.data := by
    rw [regexITest, parseRegex_escapeRegex]
  rw [h, searchFrom_litSeq, ciFind_iff]

/-! ## Lemmas: supported filter keys and unknown-parameter invariance -/

lemma mem_ite_single {c : Prop} [Decidable c] {k a : String}
    (h : k ∈ (if c then [a] else ([] : List String))) : k = a := by
  split at h
  · simpa using h
  · simp at h

lemma mongoFilter_keys_sub (f : MongoFilter) :
    ∀ k ∈ f.keys, k ∈ supportedFilterKeys := by
  intro k hk
  simp only [MongoFilter.keys, List.append_assoc, List.mem_append] at hk
  rcases hk with h | h | h | h | h | h | h | h | h | h <;>
    rw [mem_ite_single h] <;> decide

lemma readFilterOpts_updateOpt (opts : Opts) (k : String) (v : JSVal)
    (h : k ∉ filterParamNames) :
    readFilterOpts (updateOpt opts k v) = readFilterOpts opts := by
  simp only [filterParamNames, List.mem_cons, List.not_mem_nil, or_false, not_or] at h
  obtain ⟨h1, h2, h3, h4, h5, h6, h7, h8, h9, h10, h11, h12⟩ := h
  simp [readFilterOpts, updateOpt, Ne.symm h1, Ne.symm h2, Ne.symm h3,
    Ne.symm h4, Ne.symm h5, Ne.symm h6, Ne.symm h7, Ne.symm h8, Ne.symm h9,
    Ne.symm h10, Ne.symm h11, Ne.symm h12]

lemma readWrapperParams_updateOpt (g : Opts) (k : String) (v : JSVal)
    (h : k ∉ wrapperParamNames) :
    readWrapperParams (.obj (updateOpt g k v)) = readWrapperParams (.obj g) := by
  simp only [wrapperParamNames, List.mem_cons, List.not_mem_nil, or_false, not_or] at h
  obtain ⟨h1, h2, h3, h4, h5, h6, h7, h8, h9, h10, h11, h12, h13, h14, h15, h16⟩ := h
  simp [readWrapperParams, updateOpt, Ne.symm h1, Ne.symm h2, Ne.symm h3,
    Ne.symm h4, Ne.symm h5, Ne.symm h6, Ne.symm h7, Ne.symm h8, Ne.symm h9,
    Ne.symm h10, Ne.symm h11, Ne.symm h12, Ne.symm h13, Ne.symm h14,
    Ne.symm h15, Ne.symm h16]

/-! ## Claim theorems -/

/-- C1: for every call to `buildMongoFilters` with a string `keywords`
parameter whose trim is non-empty, the returned filter carries an `$or`
clause holding the escaped-keyword regex over exactly `title_en`,
`title_hi`, `title_bn` and `description` plus exact tag membership, and the
compiled case-insensitive pattern matches a string exactly when the
sanitized keywords occur in it literally as a (case-insensitive)
substring — every regex metacharacter having been escaped. -/
theorem keywords_or_clause_literal_substring
    (opts : Opts) (now : Int) (s : String)
    (hk : opts "keywords" = .str s) (hne : 0 < (jsTrim s).length) :
    (buildMongoFilters opts now).orClause =
      some [OrBranch.regexField "title_en" (escapeRegex (sanitizeString s)),
            OrBranch.regexField "title_hi" (escapeRegex (sanitizeString s)),
            OrBranch.regexField "title_bn" (escapeRegex (sanitizeString s)),
            OrBranch.regexField "description" (escapeRegex (sanitizeString s)),
            OrBranch.tagsIn [sanitizeString s]] ∧
    ∀ t : String, regexITest (escapeRegex (sanitizeString s)) t = true ↔
      ∃ l r, t.data.map Char.toLower =
        l ++ (sanitizeString s).data.map Char.toLower ++ r := by
  constructor
  · have hs : s ≠ "" := by
      intro h
      rw [h] at hne
      simp [jsTrim] at hne
    simp [buildMongoFilters, readFilterOpts, buildMongoFiltersOf, hk, hs, hne]
  · intro t
    exact regexITest_escapeRegex (sanitizeString s) t

/-- Witness for C1 at `keywords="C++"`: the `$or` clause is produced with
the escaped pattern, and the pattern matches a title exactly when it
contains the literal substring `C++` (case-insensitively). -/
theorem keywords_or_clause_literal_substring_witness :
    ((fun k => if k = "keywords" then JSVal.str "C++" else JSVal.undefined) "keywords"
        = JSVal.str "C++" ∧ 0 < (jsTrim "C++").length) ∧
    ((buildMongoFilters (fun k => if k = "keywords" then JSVal.str "C++" else JSVal.undefined)
        0).orClause =
      some [OrBranch.regexField "title_en" (escapeRegex (sanitizeString "C++")),
            OrBranch.regexField "title_hi" (escapeRegex (sanitizeString "C++")),
            OrBranch.regexField "title_bn" (escapeRegex (sanitizeString "C++")),
            OrBranch.regexField "description" (escapeRegex (sanitizeString "C++")),
            OrBranch.tagsIn [sanitizeString "C++"]] ∧
      ∀ t : String, regexITest (escapeRegex (sanitizeString "C++")) t = true ↔
        ∃ l r, t.data.map Char.toLower =
          l ++ (sanitizeString "C++").data.map Char.toLower ++ r) :=
  ⟨⟨rfl, by decide⟩,
    keywords_or_clause_literal_substring
      (fun k => if k = "keywords" then JSVal.str "C++" else JSVal.undefined)
      0 "C++" rfl (by decide)⟩

/-- C2: every key of the filter returned by `buildMongoFilters` (also when
reached through `buildPdfFiltersAndOptions`) is one of the explicitly
supported fields, and updating any parameter outside the recognized set
leaves the returned filter unchanged. -/
theorem filter_keys_supported_unknown_ignored :
    (∀ (opts : Opts) (now : Int), ∀ k ∈ (buildMongoFilters opts now).keys,
      k ∈ supportedFilterKeys) ∧
    (∀ (opts : Opts) (now : Int) (k : String) (v : JSVal), k ∉ filterParamNames →
      buildMongoFilters (updateOpt opts k v) now = buildMongoFilters opts now) ∧
    (∀ (query : QueryInput) (now : Int),
      ∀ k ∈ (buildPdfFiltersAndOptions query now).filters.keys,
      k ∈ supportedFilterKeys) ∧
    (∀ (g : Opts) (now : Int) (k : String) (v : JSVal), k ∉ wrapperParamNames →
      buildPdfFiltersAndOptions (.obj (updateOpt g k v)) now =
        buildPdfFiltersAndOptions (.obj g) now) := by
  refine ⟨?_, ?_, ?_, ?_⟩
  · intro opts now k hk
    exact mongoFilter_keys_sub _ k hk
  · intro opts now k v h
    unfold buildMongoFilters
    rw [readFilterOpts_updateOpt opts k v h]
  · intro query now k hk
    exact mongoFilter_keys_sub _ k hk
  · intro g now k v h
    unfold buildPdfFiltersAndOptions
    rw [readWrapperParams_updateOpt g k v h]

/-- Witness for C2: adding the unsupported parameter `foo` to an empty
input leaves the returned filter unchanged. -/
theorem filter_keys_supported_unknown_ignored_witness :
    ("foo" ∉ filterParamNames) ∧
    buildMongoFilters (updateOpt (fun _ => JSVal.undefined) "foo" (JSVal.str "x")) 0 =
      buildMongoFilters (fun _ => JSVal.undefined) 0 :=
  ⟨by decide,
    filter_keys_supported_unknown_ignored.2.1 (fun _ => JSVal.undefined) 0 "foo"
      (JSVal.str "x") (by decide)⟩

/-- C3: the resolved limit always lies in `[1, 200]`; `limit=0`, `limit=-5`
and `limit="abc"` each resolve to the default 12; parsed limits above 200
clamp to 200; parsed pages that are non-positive, and non-numeric pages
(which parse to the fallback), resolve to 1; and the returned skip equals
`(page-1)*limit` over the resolved values. -/
theorem list_options_clamping :
    (∀ opts : ListOptsIn,
      1 ≤ (buildListOptions opts).limit ∧ (buildListOptions opts).limit ≤ 200) ∧
    (∀ p s : JSVal, (buildListOptions ⟨p, .num 0, s⟩).limit = 12) ∧
    (∀ p s : JSVal, (buildListOptions ⟨p, .num (-5), s⟩).limit = 12) ∧
    (∀ p s : JSVal, (buildListOptions ⟨p, .str "abc", s⟩).limit = 12) ∧
    (∀ (opts : ListOptsIn) (n : Int),
      parseInteger (if opts.limit = .undefined then JSVal.num DEFAULT_LIMIT else opts.limit)
          (some DEFAULT_LIMIT) = some n → MAX_LIMIT < n →
      (buildListOptions opts).limit = 200) ∧
    (∀ (opts : ListOptsIn) (n : Int),
      parseInteger (if opts.page = .undefined then JSVal.num DEFAULT_PAGE else opts.page)
          (some DEFAULT_PAGE) = some n → n ≤ 0 →
      (buildListOptions opts).page = 1) ∧
    (∀ opts : ListOptsIn,
      parseInteger (if opts.page = .undefined then JSVal.num DEFAULT_PAGE else opts.page)
          (some DEFAULT_PAGE) = some DEFAULT_PAGE →
      (buildListOptions opts).page = 1) ∧
    (∀ opts : ListOptsIn,
      (buildListOptions opts).skip =
        ((buildListOptions opts).page - 1) * (buildListOptions opts).limit) := by
  refine ⟨?_, fun p s => rfl, fun p s => rfl, fun p s => rfl, ?_, ?_, ?_, fun opts => rfl⟩
  · intro opts
    have h : ∀ l0 : Int,
        1 ≤ (if MAX_LIMIT < (if l0 ≤ 0 then DEFAULT_LIMIT else l0) then MAX_LIMIT
              else (if l0 ≤ 0 then DEFAULT_LIMIT else l0)) ∧
        (if MAX_LIMIT < (if l0 ≤ 0 then DEFAULT_LIMIT else l0) then MAX_LIMIT
          else (if l0 ≤ 0 then DEFAULT_LIMIT else l0)) ≤ 200 := by
      intro l0
      simp only [DEFAULT_LIMIT, MAX_LIMIT]
      split_ifs <;> omega
    exact h _
  · intro opts n h hgt
    have hbl : (buildListOptions opts).limit =
        if MAX_LIMIT < (if n ≤ 0 then DEFAULT_LIMIT else n) then MAX_LIMIT
        else (if n ≤ 0 then DEFAULT_LIMIT else n) := by
      simp only [buildListOptions, h, Option.getD_some]
    rw [hbl]
    simp only [DEFAULT_LIMIT, MAX_LIMIT] at *
    split_ifs <;> omega
  · intro opts n h hle
    have hbp : (buildListOptions opts).page =
        if n ≤ 0 then DEFAULT_PAGE else n := by
      simp only [buildListOptions, h, Option.getD_some]
    rw [hbp, if_pos hle]
    rfl
  · intro opts h
    have hbp : (buildListOptions opts).page =
        if DEFAULT_PAGE ≤ 0 then DEFAULT_PAGE else DEFAULT_PAGE := by
      simp only [buildListOptions, h, Option.getD_some]
    rw [hbp]
    rfl

/-- Witness for C3 at `page="abc"`, whose parse falls back to the default. -/
theorem list_options_clamping_witness :
    parseInteger (if (ListOptsIn.mk (.str "abc") .undefined .undefined).page = .undefined
        then JSVal.num DEFAULT_PAGE
        else (ListOptsIn.mk (.str "abc") .undefined .undefined).page)
      (some DEFAULT_PAGE) = some DEFAULT_PAGE ∧
    (buildListOptions (ListOptsIn.mk (.str "abc") .undefined .undefined)).page = 1 :=
  ⟨by decide, list_options_clamping.2.2.2.2.2.2.1
    (ListOptsIn.mk (.str "abc") .undefined .undefined) (by decide)⟩

/-- C4: an entirely absent parameter set yields the empty filter (matches
everything) and the default pagination: `page=1`, `limit=12`, `skip=0`,
default `score` sort order. -/
theorem empty_params_default_filter_options :
    (∀ now : Int,
      buildMongoFilters (fun _ => JSVal.undefined) now =
        MongoFilter.mk none none none none none none none none none none) ∧
    buildListOptions ⟨.undefined, .undefined, .undefined⟩ =
      ListOptions.mk 0 12
        (SortVal.spec [("score", -1), ("downloads", -1), ("createdAt", -1)]) 1 :=
  ⟨fun _ => rfl, by decide⟩

/-- C5: the `$search` stage's compound holds the fuzzy text clause exactly
when `q` is truthy, and holds the language/category equality clauses and
the locations set-membership clause in its `must` (conjunctive) list
exactly when those parameters are supplied. -/
theorem search_pipeline_clause_presence (a : SearchArgs) :
    ∃ comp rest, buildPdfSearchPipeline a =
        PipelineStage.search "pdf_search_index" comp highlightPaths :: rest ∧
      ((SearchClause.text a.q searchTextPaths 2 2 ∈ comp.shouldL) ↔ a.q.truthy = true) ∧
      ((SearchClause.equalsC "language" a.language ∈ comp.mustL) ↔
        a.language.truthy = true) ∧
      ((SearchClause.equalsC "category" a.category ∈ comp.mustL) ↔
        a.category.truthy = true) ∧
      ((SearchClause.inC "locations" a.locations ∈ comp.mustL) ↔ a.locations ≠ []) := by
  refine ⟨_, _, rfl, ?_, ?_, ?_, ?_⟩
  · by_cases hq : a.q.truthy <;>
      simp [CompoundQuery.shouldL, hq]
  · by_cases h1 : a.language.truthy <;> by_cases h2 : a.category.truthy <;>
      by_cases h3 : a.locations.isEmpty <;>
      simp [CompoundQuery.mustL, h1, h2, h3]
  · by_cases h1 : a.language.truthy <;> by_cases h2 : a.category.truthy <;>
      by_cases h3 : a.locations.isEmpty <;>
      simp [CompoundQuery.mustL, h1, h2, h3]
  · by_cases h1 : a.language.truthy <;> by_cases h2 : a.category.truthy <;>
      by_cases h3 : a.locations.isEmpty <;>
      simp [CompoundQuery.mustL, h1, h2, h3, List.isEmpty_iff] <;>
      simp_all [List.isEmpty_iff]

/-- C6: the parsers never raise — malformed input degrades to the supplied
fallback or default; in particular `parseDate("not-a-date")` is null. -/
theorem parsers_never_throw_fallbacks :
    (∀ now : Int, parseDate (.str "not-a-date") now = none) ∧
    (∀ (v : JSVal) (fb : Option Int), v ≠ .undefined → v ≠ .null → v ≠ .str "" →
      jsParseInt v.toStr = none → parseInteger v fb = fb) ∧
    (∀ fb : Option Int, parseInteger (.str "abc") fb = fb) ∧
    (∀ fb : Option Int, parseInteger .undefined fb = fb) ∧
    (∀ fb : Option Bool, parseBoolean (.str "maybe") fb = fb) ∧
    (∀ fb : Option Bool, parseBoolean .undefined fb = fb) ∧
    parseList (.str " , ,") = [] ∧
    parseList .null = [] := by
  refine ⟨fun _ => rfl, ?_, fun _ => rfl, fun _ => rfl, fun _ => rfl, fun _ => rfl,
    rfl, rfl⟩
  intro v fb h1 h2 h3 h4
  simp [parseInteger, h1, h2, h3, h4]

/-- Witness for C6: a non-numeric string degrades to the given fallback. -/
theorem parsers_never_throw_fallbacks_witness :
    (JSVal.str "twelve" ≠ JSVal.undefined ∧ jsParseInt (JSVal.str "twelve").toStr = none) ∧
    parseInteger (JSVal.str "twelve") (some 7) = some 7 :=
  ⟨⟨by decide, by decide⟩,
    parsers_never_throw_fallbacks.2.1 (JSVal.str "twelve") (some 7)
      (by decide) (by decide) (by decide) (by decide)⟩

/-- C7 counterexample: the numeric string `"99999999999999999999"` has
length at least 10 and denotes `10^20` ms, but `parseDate` returns null for
it (the timestamp exceeds the representable Date range) instead of the
timestamp it denotes. -/
theorem parseDate_numeric_overflow_counterexample :
    parseDate (.str "99999999999999999999") 0 = none := by decide

/-- C7 (amended): `last<N><unit>` strings map to the Date at the current
time minus N units (d = 86400000 ms, h = 3600000 ms, m = 30 days,
y = 365 days); numeric strings of length at least 10 map to the millisecond
timestamp they denote when that value is within the representable Date
range, and to null when it is out of range; any other string is parsed as
an ISO-8601 date. -/
theorem parseDate_formats (now : Int) (s : String) :
    (∀ n : Nat, matchRelative (jsTrim s) = some (n, 'd') →
      parseDate (.str s) now =
        some (jsDateFromTime (now - (n : Int) * (24 * 60 * 60 * 1000)))) ∧
    (∀ n : Nat, matchRelative (jsTrim s) = some (n, 'h') →
      parseDate (.str s) now =
        some (jsDateFromTime (now - (n : Int) * (60 * 60 * 1000)))) ∧
    (∀ n : Nat, matchRelative (jsTrim s) = some (n, 'm') →
      parseDate (.str s) now =
        some (jsDateFromTime (now - (n : Int) * (30 * 24 * 60 * 60 * 1000)))) ∧
    (∀ n : Nat, matchRelative (jsTrim s) = some (n, 'y') →
      parseDate (.str s) now =
        some (jsDateFromTime (now - (n : Int) * (365 * 24 * 60 * 60 * 1000)))) ∧
    (∀ dn : DecNum, matchRelative (jsTrim s) = none → jsNumber (jsTrim s) = some dn →
      10 ≤ (jsTrim s).length → dn.absLeMax = true →
      parseDate (.str s) now = some (.valid dn.truncVal)) ∧
    (∀ dn : DecNum, matchRelative (jsTrim s) = none → jsNumber (jsTrim s) = some dn →
      10 ≤ (jsTrim s).length → dn.absLeMax = false →
      parseDate (.str s) now = none) ∧
    (matchRelative (jsTrim s) = none →
      (jsNumber (jsTrim s) = none ∨ (jsTrim s).length < 10) → s ≠ "" →
      parseDate (.str s) now =
        match isoParse (jsTrim s) with
        | some t => dateOrNull (jsDateFromTime t)
        | none => none) := by
  have hne : ∀ {x : Nat × Char}, matchRelative (jsTrim s) = some x → s ≠ "" := by
    intro x hrel
    rintro rfl
    rw [show matchRelative (jsTrim "") = none from rfl] at hrel
    exact Option.noConfusion hrel
  refine ⟨?_, ?_, ?_, ?_, ?_, ?_, ?_⟩
  · intro n hrel
    simp [parseDate, JSVal.truthy, JSVal.toStr, hne hrel, hrel]
  · intro n hrel
    simp [parseDate, JSVal.truthy, JSVal.toStr, hne hrel, hrel]
  · intro n hrel
    simp [parseDate, JSVal.truthy, JSVal.toStr, hne hrel, hrel]
  · intro n hrel
    simp [parseDate, JSVal.truthy, JSVal.toStr, hne hrel, hrel]
  · intro dn hrel hnum hlen hrange
    have hs : s ≠ "" := by
      rintro rfl
      rw [show (jsTrim "").length = 0 from rfl] at hlen
      omega
    simp [parseDate, JSVal.truthy, JSVal.toStr, hs, hrel, hnum, hlen,
      jsDateFromNum, hrange, dateOrNull]
  · intro dn hrel hnum hlen hrange
    have hs : s ≠ "" := by
      rintro rfl
      rw [show (jsTrim "").length = 0 from rfl] at hlen
      omega
    simp [parseDate, JSVal.truthy, JSVal.toStr, hs, hrel, hnum, hlen,
      jsDateFromNum, hrange, dateOrNull]
  · intro hrel hnn hs
    rcases hnn with hnone | hlt
    · simp [parseDate, JSVal.truthy, JSVal.toStr, hs, hrel, hnone]
    · have hlen : ¬ (10 ≤ (jsTrim s).length) := by omega
      rcases hj : jsNumber (jsTrim s) with _ | dn <;>
        simp [parseDate, JSVal.truthy, JSVal.toStr, hs, hrel, hj, hlen]

/-- Witness for C7 at `"last7d"`: the current time minus `7*86400000` ms. -/
theorem parseDate_formats_witness :
    matchRelative (jsTrim "last7d") = some (7, 'd') ∧
    parseDate (.str "last7d") 0 =
      some (jsDateFromTime (0 - (7 : Int) * (24 * 60 * 60 * 1000))) :=
  ⟨by decide, (parseDate_formats 0 "last7d").1 7 (by decide)⟩

/-- C8: every pipeline ends in a single `$facet` fan-out with
`skip = (page-1)*limit` and the page limit, producing the page slice and
the total count; executed with `page=2, limit=10` on 25 ranked matches it
yields exactly items 11-20 of the ranked order, `total=25`, and the
handler's `totalPages = ceil(25/10) = 3`. -/
theorem facet_pagination_fanout :
    (∀ a : SearchArgs, (buildPdfSearchPipeline a).getLast? =
      some (PipelineStage.facet ((a.page - 1) * a.limit) a.limit)) ∧
    (∀ (a : SearchArgs) (sk lm : Int),
      PipelineStage.facet sk lm ∉ (buildPdfSearchPipeline a).dropLast) ∧
    searchEnvelope (List.range 25) 2 10 =
      ([10, 11, 12, 13, 14, 15, 16, 17, 18, 19], 25, 3) ∧
    (searchEnvelope (List.range 25) 2 10).1 = ((List.range 25).drop 10).take 10 ∧
    (searchEnvelope (List.range 25) 2 10).1.length ≤ 10 := by
  refine ⟨fun a => rfl, ?_, by decide, by decide, by decide⟩
  intro a sk lm h
  simp only [buildPdfSearchPipeline, List.dropLast, List.mem_cons,
    List.not_mem_nil, or_false] at h
  rcases h with h | h | h | h <;> try exact PipelineStage.noConfusion h
  split at h
  · exact PipelineStage.noConfusion h
  · split at h <;> exact PipelineStage.noConfusion h

/-- Witness for C8: the fan-out stage of a concrete `page=2, limit=10`
pipeline has `skip=10` and `limit=10`. -/
theorem facet_pagination_fanout_witness :
    (buildPdfSearchPipeline
        ⟨JSVal.str "q", JSVal.undefined, JSVal.undefined, [], "score", 2, 10⟩).getLast? =
      some (PipelineStage.facet ((2 - 1) * 10) 10) :=
  facet_pagination_fanout.1 ⟨JSVal.str "q", JSVal.undefined, JSVal.undefined, [], "score", 2, 10⟩

/-- An association-list lookup misses every key outside the key column. -/
lemma lookup_eq_none_of_not_mem_keys {β : Type} (l : List (String × β)) (s : String)
    (h : s ∉ l.map Prod.fst) : l.lookup s = none := by
  induction l with
  | nil => rfl
  | cons a t ih =>
    obtain ⟨k, b⟩ := a
    simp only [List.map_cons, List.mem_cons, not_or] at h
    have hbeq : (s == k) = false := by
      simp [h.1]
    simp [List.lookup, hbeq, ih h.2]

/-- An unrecognized sort name outside `Object.prototype` reads `undefined`
from `SORT_MAP`. -/
lemma sortMapGet_eq_none (s : String)
    (h1 : s ∉ sortMapOwnKeys) (h2 : s ∉ objectProtoNames) :
    sortMapGet s = none := by
  rw [sortMapGet, lookup_eq_none_of_not_mem_keys SORT_MAP s h1]
  simp [h2]

/-- C9 counterexample: `sort="constructor"` is an unrecognized sort name,
but the JS property read `SORT_MAP['constructor']` hits the inherited,
truthy `Object.prototype.constructor`, so `buildListOptions` returns that
inherited value — not the `score` ordering. -/
theorem sort_constructor_prototype_counterexample :
    (buildListOptions ⟨.undefined, .undefined, .str "constructor"⟩).sort =
      SortVal.protoFn "constructor" ∧
    SortVal.protoFn "constructor" ≠
      SortVal.spec [("score", -1), ("downloads", -1), ("createdAt", -1)] := by
  exact ⟨rfl, by decide⟩

/-- C9 (amended): the sort name `downloads` yields the ordering
`downloads: -1, createdAt: -1` in both builders; in `buildPdfSearchPipeline`
every sort name other than `downloads` and `latest` yields exactly the
`score` ordering (`score: -1, downloads: -1, createdAt: -1`); in
`buildListOptions` every unrecognized sort name that is not a property name
of `Object.prototype` (e.g. `bogus`) yields exactly the same ordering as
`score` — prototype property names such as `constructor` instead return the
inherited value. Neither builder ever errors. -/
theorem sort_downloads_and_unrecognized_fallback :
    (∀ p l : JSVal, (buildListOptions ⟨p, l, .str "downloads"⟩).sort =
      SortVal.spec [("downloads", -1), ("createdAt", -1)]) ∧
    (∀ p l : JSVal, (buildListOptions ⟨p, l, .str "score"⟩).sort =
      SortVal.spec [("score", -1), ("downloads", -1), ("createdAt", -1)]) ∧
    (∀ (p l : JSVal) (s : String), s ∉ sortMapOwnKeys → s ∉ objectProtoNames →
      (buildListOptions ⟨p, l, .str s⟩).sort =
        (buildListOptions ⟨p, l, .str "score"⟩).sort) ∧
    (∀ (q lang cat : JSVal) (locs : List String) (pg lim : Int),
      sortSpecOf (buildPdfSearchPipeline ⟨q, lang, cat, locs, "downloads", pg, lim⟩) =
        some [("downloads", -1), ("createdAt", -1)]) ∧
    (∀ (q lang cat : JSVal) (locs : List String) (pg lim : Int) (s : String),
      s ≠ "downloads" → s ≠ "latest" →
      buildPdfSearchPipeline ⟨q, lang, cat, locs, s, pg, lim⟩ =
        buildPdfSearchPipeline ⟨q, lang, cat, locs, "score", pg, lim⟩) := by
  refine ⟨fun _ _ => rfl, fun _ _ => rfl, ?_, fun _ _ _ _ _ _ => rfl, ?_⟩
  · intro p l s h1 h2
    have hget : sortMapGet s = none := sortMapGet_eq_none s h1 h2
    have hL : (buildListOptions ⟨p, l, JSVal.str s⟩).sort =
        SortVal.spec [("score", -1), ("downloads", -1), ("createdAt", -1)] := by
      have hmatch : (if JSVal.str s = JSVal.undefined then JSVal.str "score"
          else JSVal.str s) = JSVal.str s := by
        rw [if_neg]
        intro hc
        exact JSVal.noConfusion hc
      simp only [buildListOptions, hmatch, hget, Option.isSome_none,
        Bool.false_eq_true, if_false]
      rfl
    rw [hL]
    rfl
  · intro q lang cat locs pg lim s hd hl
    simp [buildPdfSearchPipeline, hd, hl]

/-- Witness for C9 at the unrecognized sort name `bogus`: same ordering as
`score`. -/
theorem sort_downloads_and_unrecognized_fallback_witness :
    ("bogus" ∉ sortMapOwnKeys ∧ "bogus" ∉ objectProtoNames) ∧
    (buildListOptions ⟨.undefined, .undefined, .str "bogus"⟩).sort =
      (buildListOptions ⟨.undefined, .undefined, .str "score"⟩).sort :=
  ⟨⟨by decide, by decide⟩,
    sort_downloads_and_unrecognized_fallback.2.2.1 .undefined .undefined "bogus"
      (by decide) (by decide)⟩

/-- A direct description of the `isPaid` entry produced through the
plain-object wrapper path. -/
lemma wrapper_isPaid (g : Opts) (now : Int) :
    (buildPdfFiltersAndOptions (.obj g) now).filters.isPaid =
      (if g "isPaid" = .undefined then none
       else
         match parseBoolean (g "isPaid") none with
         | some b => some b
         | none => none) := by
  by_cases hu : g "isPaid" = .undefined
  · simp [buildPdfFiltersAndOptions, readWrapperParams, buildMongoFiltersOf, hu]
  · rcases hpb : parseBoolean (g "isPaid") none with _ | b
    · simp [buildPdfFiltersAndOptions, readWrapperParams, buildMongoFiltersOf,
        hu, hpb, boolValOf]
    · simp [buildPdfFiltersAndOptions, readWrapperParams, buildMongoFiltersOf,
        hu, hpb, boolValOf, JSVal.truthy]

/-- C10: called directly, `buildMongoFilters` sets `isPaid` to the
JavaScript truthiness of any non-undefined, non-null value — so every
non-empty string, including `"false"`, `"0"` and `"no"`, yields
`isPaid: true` — while the `buildPdfFiltersAndOptions` wrapper first
applies `parseBoolean`, mapping those spellings to `false` and omitting
the filter for unrecognized spellings. -/
theorem isPaid_truthiness_direct_vs_wrapper :
    (∀ (opts : Opts) (now : Int), opts "isPaid" ≠ .undefined → opts "isPaid" ≠ .null →
      (buildMongoFilters opts now).isPaid = some (opts "isPaid").truthy) ∧
    (∀ (opts : Opts) (now : Int) (s : String), opts "isPaid" = .str s → s ≠ "" →
      (buildMongoFilters opts now).isPaid = some true) ∧
    (∀ (g : Opts) (now : Int), g "isPaid" = .str "false" →
      (buildPdfFiltersAndOptions (.obj g) now).filters.isPaid = some false) ∧
    (∀ (g : Opts) (now : Int), g "isPaid" = .str "0" →
      (buildPdfFiltersAndOptions (.obj g) now).filters.isPaid = some false) ∧
    (∀ (g : Opts) (now : Int), g "isPaid" = .str "no" →
      (buildPdfFiltersAndOptions (.obj g) now).filters.isPaid = some false) ∧
    (∀ (g : Opts) (now : Int), g "isPaid" = .str "maybe" →
      (buildPdfFiltersAndOptions (.obj g) now).filters.isPaid = none) := by
  refine ⟨?_, ?_, ?_, ?_, ?_, ?_⟩
  · intro opts now h1 h2
    simp [buildMongoFilters, readFilterOpts, buildMongoFiltersOf, h1, h2]
  · intro opts now s hk hs
    simp [buildMongoFilters, readFilterOpts, buildMongoFiltersOf, hk,
      JSVal.truthy, hs]
  · intro g now hk
    rw [wrapper_isPaid, hk]
    decide
  · intro g now hk
    rw [wrapper_isPaid, hk]
    decide
  · intro g now hk
    rw [wrapper_isPaid, hk]
    decide
  · intro g now hk
    rw [wrapper_isPaid, hk]
    decide

/-- Witness for C10 at `isPaid="false"`: the direct call yields
`isPaid: true`, the wrapper yields `isPaid: false`. -/
theorem isPaid_truthiness_direct_vs_wrapper_witness :
    ((fun k => if k = "isPaid" then JSVal.str "false" else JSVal.undefined) "isPaid" =
      JSVal.str "false") ∧
    (buildMongoFilters
        (fun k => if k = "isPaid" then JSVal.str "false" else JSVal.undefined) 0).isPaid =
      some true ∧
    (buildPdfFiltersAndOptions
        (.obj (fun k => if k = "isPaid" then JSVal.str "false" else JSVal.undefined))
        0).filters.isPaid = some false :=
  ⟨rfl,
    isPaid_truthiness_direct_vs_wrapper.2.1
      (fun k => if k = "isPaid" then JSVal.str "false" else JSVal.undefined)
      0 "false" rfl (by decide),
    isPaid_truthiness_direct_vs_wrapper.2.2.1
      (fun k => if k = "isPaid" then JSVal.str "false" else JSVal.undefined)
      0 rfl⟩

end Elearn
